import Mathlib

/-!
# Verification of the POS transactional sales-and-inventory engine

Shallow embedding of the sales / inventory core of the `system-posLibreria`
repository: `SalesService.create`, `SalesService.cancel`
(electron/services/SalesService.ts) and `ProductService.adjustStock`
(electron/services/ProductService.ts), over the SQLite schema declared in
electron/database/database.ts.

Modelling conventions:
* The database is a record of lists of rows (`DB`), one list per table that
  the modelled operations touch.
* `withTransaction` (electron/database/database.ts) wraps each mutation in a
  better-sqlite3 transaction: a thrown error rolls the whole unit back.  This
  is embedded by making every operation a pure function
  `DB → Except SaleError (DB × _)`; on `Except.error` the caller keeps its
  original `DB` (see `applyOp`), which is exactly the rollback semantics.
* `generateId` in the source produces a fresh opaque string id from a
  timestamp and a random suffix; it is modelled as a counter (`DB.nextId`)
  that hands out distinct `Nat` ids, preserving the uniqueness the source
  relies on.
* SQL `REAL` money values and `INTEGER` quantities are both modelled as
  `Int`; the operations only move these values around and compare them, so
  no floating-point behaviour is relevant to the modelled code paths.
* `DATE(created_at)` / `new Date().toISOString().split("T")[0]` reduce dates
  to calendar-day granularity; days are modelled as a `Nat` day index held in
  `DB.today` (the engine's clock) and stamped on rows at insert time.
* JavaScript errors are thrown as `Error` objects carrying message strings;
  they are modelled by the inductive `SaleError`, whose constructors carry
  the data that the source interpolates into each message.
-/

namespace POS

/-- Movement types of the `stock_movements` table
(`CHECK(movement_type IN ('sale', 'adjustment', 'restock'))`). -/
inductive MovementType where
  | sale
  | adjustment
  | restock
deriving DecidableEq, Repr

/-- Payment methods of the `sales` table
(`CHECK(payment_method IN ('cash', 'card', 'transfer'))`). -/
inductive PaymentMethod where
  | cash
  | card
  | transfer
deriving DecidableEq, Repr

/-- A row of the `products` table.  Catalog fields that none of the modelled
operations ever read (price, cost, min_stock, category, barcode, description,
image_url, timestamps) are omitted. -/
structure ProductRow where
  id : Nat
  name : String
  stock : Int
  is_active : Bool
deriving DecidableEq, Repr

/-- A row of the `sales` table (interface `Sale` in SalesService.ts).
`created_date` models `DATE(created_at)`, the calendar day stamped by the
engine's clock at insert time. -/
structure SaleRow where
  id : Nat
  total : Int
  subtotal : Int
  tax : Int
  discount : Int
  payment_method : PaymentMethod
  cashier_id : String
  cashier_name : String
  customer_name : Option String
  notes : Option String
  daily_number : Int
  is_active : Bool
  created_date : Nat
deriving DecidableEq, Repr

/-- A row of the `sale_items` table (interface `SaleItem` in SalesService.ts). -/
structure SaleItemRow where
  id : Nat
  sale_id : Nat
  product_id : Nat
  product_name : String
  quantity : Int
  unit_price : Int
  total_price : Int
deriving DecidableEq, Repr

/-- A row of the append-only `stock_movements` ledger. -/
structure StockMovementRow where
  id : Nat
  product_id : Nat
  movement_type : MovementType
  quantity : Int
  previous_stock : Int
  new_stock : Int
  reference_id : Option Nat
  notes : Option String
  created_by : Option String
deriving DecidableEq, Repr

/-- The database state: one list per table touched by the modelled
operations, plus the id counter (modelling `generateId`) and the engine's
calendar-day clock. -/
structure DB where
  nextId : Nat
  today : Nat
  products : List ProductRow
  sales : List SaleRow
  sale_items : List SaleItemRow
  stock_movements : List StockMovementRow
deriving DecidableEq, Repr

/-- One line item of a sale request (element type of
`CreateSaleInput.items` in SalesService.ts). -/
structure CreateSaleItemInput where
  product_id : Nat
  product_name : String
  quantity : Int
  unit_price : Int
  total_price : Int
deriving DecidableEq, Repr

/-- The request payload of `SalesService.create`
(interface `CreateSaleInput` in SalesService.ts). -/
structure CreateSaleInput where
  items : List CreateSaleItemInput
  subtotal : Int
  total : Int
  tax : Option Int
  discount : Option Int
  payment_method : PaymentMethod
  cashier_id : String
  cashier_name : String
  customer_name : Option String
  notes : Option String
deriving DecidableEq, Repr

/-- The result of `SalesService.create`: the persisted sale header re-read
from the database, plus the assigned daily number. -/
structure CreateSaleResult where
  sale : SaleRow
  daily_number : Int
deriving DecidableEq, Repr

/-- The errors thrown by the modelled operations.  The source throws plain
`Error` objects; each constructor carries the data the source interpolates
into the corresponding message, classified by the spec's error taxonomy:
* `validation` : "La venta debe tener al menos un producto",
  "El total debe ser mayor a cero";
* `notFound` : `Producto "<name>" no encontrado`, "Producto no encontrado",
  "Venta no encontrada o ya cancelada";
* `insufficientStock` : `Stock insuficiente para "<name>".
  Disponible: <available>, Solicitado: <requested>`;
* `invalidState` : "El stock no puede ser negativo". -/
inductive SaleError where
  | validation (msg : String)
  | notFound (msg : String)
  | insufficientStock (productName : String) (available requested : Int)
  | invalidState (msg : String)
deriving DecidableEq, Repr

/-- `generateId()` (electron/database/database.ts): produces a fresh unique
id; modelled as the counter `DB.nextId`. -/
def generateId (db : DB) : Nat × DB :=
  (db.nextId, { db with nextId := db.nextId + 1 })

/-- JavaScript `x || null` applied to an optional string: the empty string
is falsy and is replaced by `null`. -/
def jsOrNull (s : Option String) : Option String :=
  match s with
  | some str => if str = "" then none else some str
  | none => none

/-- `SELECT * FROM products WHERE id = ?` / `SELECT stock FROM products
WHERE id = ?` — note: no `is_active` filter, so soft-deleted products are
found too. -/
def findProduct (db : DB) (pid : Nat) : Option ProductRow :=
  db.products.find? (fun p => p.id == pid)

/-- The current stock of a product, `none` when no row with that id exists. -/
def stockOf (db : DB) (pid : Nat) : Option Int :=
  (findProduct db pid).map (fun p => p.stock)

/-- Whether a row with this product id exists at all (active or not). -/
def present (db : DB) (pid : Nat) : Bool :=
  (findProduct db pid).isSome

/-- The `daily_number`s of the sales created on the engine's current
calendar day (`WHERE DATE(created_at) = DATE(?)`; note: no `is_active`
filter, cancelled sales are included). -/
def dailyNumbersToday (db : DB) : List Int :=
  (db.sales.filter (fun s => s.created_date == db.today)).map
    (fun s => s.daily_number)

/-- Step 1 of `SalesService.create`: `SELECT daily_number FROM sales WHERE
DATE(created_at) = DATE(?) ORDER BY daily_number DESC LIMIT 1`, then
`lastSale ? lastSale.daily_number + 1 : 1`.  `ORDER BY daily_number DESC
LIMIT 1` is embedded as the maximum of the listed values. -/
def nextDailyNumber (db : DB) : Int :=
  match (dailyNumbersToday db).max? with
  | some m => m + 1
  | none => 1

/-- The `sales` row inserted by step 2 of `SalesService.create`
(`INSERT INTO sales (...)`): caller-supplied totals stored as given,
`tax`/`discount` defaulted to 0 via `data.tax || 0` / `data.discount || 0`
(on integers `some t || 0` and `(some t).getD 0` agree), `is_active`
defaulted to 1 by the schema, the fresh id and the computed daily number. -/
def newSaleRow (db : DB) (d : CreateSaleInput) : SaleRow :=
  { id := db.nextId
    total := d.total
    subtotal := d.subtotal
    tax := d.tax.getD 0
    discount := d.discount.getD 0
    payment_method := d.payment_method
    cashier_id := d.cashier_id
    cashier_name := d.cashier_name
    customer_name := jsOrNull d.customer_name
    notes := jsOrNull d.notes
    daily_number := nextDailyNumber db
    is_active := true
    created_date := db.today }

/-- Step 4 of `SalesService.create` ("Procesar items"): for each line item,
in input order: read the product's current stock (fails `notFound` when the
id does not exist), check `product.stock < item.quantity` (fails
`insufficientStock` naming the product and both quantities), insert the
`sale_items` row with the request's values as given, decrement the stock
(`UPDATE products SET stock = stock - ? WHERE id = ?`) and append a
`stock_movements` row of type `sale` with the read stock as
`previous_stock`, `reference_id` = the sale id and `created_by` = the
cashier. -/
def processItems (saleId : Nat) (cashierId : String) :
    List CreateSaleItemInput → DB → Except SaleError DB
  | [], db => .ok db
  | item :: rest, db =>
    match db.products.find? (fun p => p.id == item.product_id) with
    | none =>
        .error (.notFound ("Producto \"" ++ item.product_name ++ "\" no encontrado"))
    | some product =>
        if product.stock < item.quantity then
          .error (.insufficientStock item.product_name product.stock item.quantity)
        else
          let (itemId, db1) := generateId db
          let db2 : DB :=
            { db1 with sale_items := db1.sale_items ++
                [{ id := itemId, sale_id := saleId,
                   product_id := item.product_id,
                   product_name := item.product_name,
                   quantity := item.quantity,
                   unit_price := item.unit_price,
                   total_price := item.total_price }] }
          let db3 : DB :=
            { db2 with products := db2.products.map (fun p =>
                if p.id = item.product_id then
                  { p with stock := p.stock - item.quantity } else p) }
          let (movId, db4) := generateId db3
          let db5 : DB :=
            { db4 with stock_movements := db4.stock_movements ++
                [{ id := movId, product_id := item.product_id,
                   movement_type := .sale, quantity := item.quantity,
                   previous_stock := product.stock,
                   new_stock := product.stock - item.quantity,
                   reference_id := some saleId, notes := none,
                   created_by := some cashierId }] }
          processItems saleId cashierId rest db5

namespace SalesService

/-- `SalesService.create` (SalesService.ts): validate the request (non-empty
item list, positive total), then inside one transaction compute the daily
number, insert the sale header, process every line item, and re-read the
persisted header (`SELECT * FROM sales WHERE id = ?`).  A thrown error
aborts the transaction: the caller's state is unchanged (see `applyOp`).
The final `none` branch of the re-read is unreachable because the header was
just inserted. -/
def create (db : DB) (d : CreateSaleInput) :
    Except SaleError (DB × CreateSaleResult) :=
  if d.items.isEmpty then
    .error (.validation "La venta debe tener al menos un producto")
  else if d.total ≤ 0 then
    .error (.validation "El total debe ser mayor a cero")
  else
    let (saleId, db1) := generateId db
    let row := newSaleRow db d
    let db2 : DB := { db1 with sales := db1.sales ++ [row] }
    match processItems saleId d.cashier_id d.items db2 with
    | .error e => .error e
    | .ok db3 =>
        match db3.sales.find? (fun s => s.id == saleId) with
        | some sale => .ok (db3, { sale := sale, daily_number := row.daily_number })
        | none => .error (.notFound "Venta no encontrada")

end SalesService

/-- The item-reversal loop of `SalesService.cancel` ("Revertir stock de cada
producto"): for each `sale_items` row of the sale, look the product up by id
(no `is_active` filter); when the row exists, increment its stock
(`UPDATE products SET stock = stock + ? WHERE id = ?`) and append a
compensating `stock_movements` row of type `adjustment` with
`reference_id` = the sale id and a note naming the cancelled sale's daily
number; when no row exists, silently skip the item. -/
def revertItems (saleId : Nat) (userId : String) (saleDaily : Int) :
    List SaleItemRow → DB → DB
  | [], db => db
  | item :: rest, db =>
    match db.products.find? (fun p => p.id == item.product_id) with
    | none => revertItems saleId userId saleDaily rest db
    | some product =>
        let db1 : DB :=
          { db with products := db.products.map (fun p =>
              if p.id = item.product_id then
                { p with stock := p.stock + item.quantity } else p) }
        let (movId, db2) := generateId db1
        let db3 : DB :=
          { db2 with stock_movements := db2.stock_movements ++
              [{ id := movId, product_id := item.product_id,
                 movement_type := .adjustment, quantity := item.quantity,
                 previous_stock := product.stock,
                 new_stock := product.stock + item.quantity,
                 reference_id := some saleId,
                 notes := some ("Cancelación de venta #" ++ toString saleDaily),
                 created_by := some userId }] }
        revertItems saleId userId saleDaily rest db3

namespace SalesService

/-- `SalesService.cancel` (SalesService.ts): find the sale
(`SELECT * FROM sales WHERE id = ? AND is_active = 1`; fails `notFound`
"Venta no encontrada o ya cancelada" otherwise, which also covers the
already-cancelled case), load its `sale_items`, revert the stock of each
item, and mark the sale cancelled
(`UPDATE sales SET is_active = 0 WHERE id = ?`). -/
def cancel (db : DB) (id : Nat) (userId : String) : Except SaleError DB :=
  match db.sales.find? (fun s => s.id == id && s.is_active) with
  | none => .error (.notFound "Venta no encontrada o ya cancelada")
  | some sale =>
      let items := db.sale_items.filter (fun it => it.sale_id == id)
      let db1 := revertItems id userId sale.daily_number items db
      .ok { db1 with sales := db1.sales.map (fun s =>
              if s.id = id then { s with is_active := false } else s) }

end SalesService

namespace ProductService

/-- `ProductService.adjustStock` (electron/services/ProductService.ts): look
the product up by id via `getOne` (`SELECT * FROM products WHERE id = ?`,
no `is_active` filter; fails `notFound` "Producto no encontrado"), compute
`newStock = previousStock + quantity`, fail with `invalidState`
"El stock no puede ser negativo" when `newStock < 0`, otherwise write the
new stock (`UPDATE products SET stock = ? WHERE id = ?`) and append a
`stock_movements` row of type `adjustment` with `notes` = the reason and no
`reference_id`. -/
def adjustStock (db : DB) (productId : Nat) (quantity : Int)
    (reason : String) (userId : String) : Except SaleError DB :=
  match db.products.find? (fun p => p.id == productId) with
  | none => .error (.notFound "Producto no encontrado")
  | some product =>
      let previousStock := product.stock
      let newStock := previousStock + quantity
      if newStock < 0 then
        .error (.invalidState "El stock no puede ser negativo")
      else
        let db1 : DB :=
          { db with products := db.products.map (fun p =>
              if p.id = productId then { p with stock := newStock } else p) }
        let (movId, db2) := generateId db1
        .ok { db2 with stock_movements := db2.stock_movements ++
                [{ id := movId, product_id := productId,
                   movement_type := .adjustment, quantity := quantity,
                   previous_stock := previousStock, new_stock := newStock,
                   reference_id := none, notes := some reason,
                   created_by := some userId }] }

end ProductService

/-- The three mutating operations of the engine, as submitted by a caller. -/
inductive Op where
  | createSale (data : CreateSaleInput)
  | cancelSale (id : Nat) (userId : String)
  | adjustStock (productId : Nat) (quantity : Int) (reason userId : String)
deriving DecidableEq, Repr

/-- Run one operation against the store.  A thrown error aborts the
surrounding better-sqlite3 transaction (`withTransaction`,
electron/database/database.ts), so on `Except.error` the state is exactly
the state before the call. -/
def applyOp (db : DB) : Op → DB
  | .createSale data =>
      match SalesService.create db data with
      | .ok (db', _) => db'
      | .error _ => db
  | .cancelSale id userId =>
      match SalesService.cancel db id userId with
      | .ok db' => db'
      | .error _ => db
  | .adjustStock pid qty reason userId =>
      match ProductService.adjustStock db pid qty reason userId with
      | .ok db' => db'
      | .error _ => db

/-- Run a sequence of operations (single-writer discipline: one at a time). -/
def runOps (db : DB) (ops : List Op) : DB :=
  ops.foldl applyOp db

/-- Total quantity that a request's line items demand of one product. -/
def itemsQty (items : List CreateSaleItemInput) (pid : Nat) : Int :=
  ((items.filter (fun it => it.product_id == pid)).map
    (fun it => it.quantity)).sum

/-- Total quantity that stored sale-item rows carry for one product. -/
def rowsQty (rows : List SaleItemRow) (pid : Nat) : Int :=
  ((rows.filter (fun it => it.product_id == pid)).map
    (fun it => it.quantity)).sum

/-- Database well-formedness maintained by the real store: product ids are
unique (`id TEXT PRIMARY KEY`), and ids already handed out by `generateId`
are below the counter (sale ids and the sale ids referenced by item rows),
so a freshly generated id never collides. -/
def WF (db : DB) : Prop :=
  (db.products.map (fun p => p.id)).Nodup ∧
  (∀ s ∈ db.sales, s.id < db.nextId) ∧
  (∀ it ∈ db.sale_items, it.sale_id < db.nextId)

/-- Every product row has non-negative stock. -/
def stocksNonneg (db : DB) : Prop :=
  ∀ p ∈ db.products, 0 ≤ p.stock

/-- Every stored sale-item row has non-negative quantity (the data model's
`quantity > 0` invariant, weakened to what the proofs need). -/
def itemsNonneg (db : DB) : Prop :=
  ∀ it ∈ db.sale_items, 0 ≤ it.quantity

/-- An operation whose inputs respect the data model's `quantity > 0`
invariant on sale line items (weakened to non-negativity). -/
def opOk (op : Op) : Prop :=
  match op with
  | .createSale d => ∀ it ∈ d.items, 0 ≤ it.quantity
  | _ => True

/-- The daily-number rule as the specification states it: the maximum
`daily_number` among the sales (active or cancelled) created on the current
calendar date, plus 1 — or 1 when no sale exists for that date. -/
def specAssignedDaily (db : DB) : Int :=
  if dailyNumbersToday db = [] then 1
  else (dailyNumbersToday db).max?.getD 0 + 1

/-- Relation between a stored `sale_items` row and the request line item it
was created from: the row belongs to the given sale and snapshots the
request's values verbatim. -/
def itemRel (saleId : Nat) (r : SaleItemRow) (it : CreateSaleItemInput) : Prop :=
  r.sale_id = saleId ∧ r.product_id = it.product_id ∧
  r.product_name = it.product_name ∧ r.quantity = it.quantity ∧
  r.unit_price = it.unit_price ∧ r.total_price = it.total_price

/-- Relation between a ledger row written by `SalesService.create` and the
request line item that caused it. -/
def movRel (saleId : Nat) (cashierId : String)
    (m : StockMovementRow) (it : CreateSaleItemInput) : Prop :=
  m.movement_type = .sale ∧ m.reference_id = some saleId ∧
  m.product_id = it.product_id ∧ m.quantity = it.quantity ∧
  m.created_by = some cashierId

/-- Relation between a compensating ledger row written by
`SalesService.cancel` and the stored sale-item row it reverses. -/
def cancelMovRel (saleId : Nat) (userId : String)
    (m : StockMovementRow) (it : SaleItemRow) : Prop :=
  m.movement_type = .adjustment ∧ m.reference_id = some saleId ∧
  m.product_id = it.product_id ∧ m.quantity = it.quantity ∧
  m.created_by = some userId

/-- The state after one successful iteration of the item loop of
`SalesService.create` (the let-chain of `processItems` written out). -/
def saleStepDB (saleId : Nat) (cashierId : String) (a : CreateSaleItemInput)
    (db : DB) (product : ProductRow) : DB :=
  { nextId := db.nextId + 2
    today := db.today
    products := db.products.map (fun p =>
      if p.id = a.product_id then { p with stock := p.stock - a.quantity } else p)
    sales := db.sales
    sale_items := db.sale_items ++
      [{ id := db.nextId, sale_id := saleId, product_id := a.product_id,
         product_name := a.product_name, quantity := a.quantity,
         unit_price := a.unit_price, total_price := a.total_price }]
    stock_movements := db.stock_movements ++
      [{ id := db.nextId + 1, product_id := a.product_id,
         movement_type := .sale, quantity := a.quantity,
         previous_stock := product.stock,
         new_stock := product.stock - a.quantity,
         reference_id := some saleId, notes := none,
         created_by := some cashierId }] }

/-- The state after one non-skipped iteration of the reversal loop of
`SalesService.cancel` (the let-chain of `revertItems` written out). -/
def cancelStepDB (saleId : Nat) (userId : String) (saleDaily : Int)
    (item : SaleItemRow) (db : DB) (product : ProductRow) : DB :=
  { nextId := db.nextId + 1
    today := db.today
    products := db.products.map (fun p =>
      if p.id = item.product_id then { p with stock := p.stock + item.quantity } else p)
    sales := db.sales
    sale_items := db.sale_items
    stock_movements := db.stock_movements ++
      [{ id := db.nextId, product_id := item.product_id,
         movement_type := .adjustment, quantity := item.quantity,
         previous_stock := product.stock,
         new_stock := product.stock + item.quantity,
         reference_id := some saleId,
         notes := some ("Cancelación de venta #" ++ toString saleDaily),
         created_by := some userId }] }

/-- The state produced by a successful `SalesService.cancel` (the let-chain
of `cancel` written out, given the found active sale row). -/
def cancelResultDB (db : DB) (sid : Nat) (userId : String) (sale : SaleRow) : DB :=
  let db1 := revertItems sid userId sale.daily_number
    (db.sale_items.filter (fun it => it.sale_id == sid)) db
  { db1 with sales := db1.sales.map (fun s =>
      if s.id = sid then { s with is_active := false } else s) }

/-- The state produced by a successful `ProductService.adjustStock` (its
let-chain written out, given the found product row). -/
def adjustResultDB (db : DB) (productId : Nat) (quantity : Int)
    (reason userId : String) (product : ProductRow) : DB :=
  { nextId := db.nextId + 1
    today := db.today
    products := db.products.map (fun p =>
      if p.id = productId then { p with stock := product.stock + quantity } else p)
    sales := db.sales
    sale_items := db.sale_items
    stock_movements := db.stock_movements ++
      [{ id := db.nextId, product_id := productId,
         movement_type := .adjustment, quantity := quantity,
         previous_stock := product.stock,
         new_stock := product.stock + quantity,
         reference_id := none, notes := some reason,
         created_by := some userId }] }

/-! Concrete states and requests used to evaluate the operations on
explicit inputs. -/

/-- A catalog with one active product, stock 10. -/
def pLapicero : ProductRow :=
  { id := 1, name := "Lapicero", stock := 10, is_active := true }

/-- An empty store holding only `pLapicero`; id counter at 100, day 0. -/
def baseDB : DB :=
  { nextId := 100, today := 0, products := [pLapicero], sales := [],
    sale_items := [], stock_movements := [] }

/-- A regular request: 4 units of product 1. -/
def wSale : CreateSaleInput :=
  { items := [⟨1, "Lapicero", 4, 2, 8⟩],
    subtotal := 8, total := 8, tax := none, discount := none,
    payment_method := .cash, cashier_id := "u1", cashier_name := "Ana",
    customer_name := none, notes := none }

/-- A request with a negative quantity — never rejected by `create`. -/
def cexSaleNeg : CreateSaleInput :=
  { items := [⟨1, "Lapicero", -5, 2, -10⟩],
    subtotal := 10, total := 10, tax := none, discount := none,
    payment_method := .cash, cashier_id := "u1", cashier_name := "Ana",
    customer_name := none, notes := none }

/-- A request consuming the stock inflated by `cexSaleNeg`. -/
def cexSalePos : CreateSaleInput :=
  { items := [⟨1, "Lapicero", 15, 2, 30⟩],
    subtotal := 30, total := 30, tax := none, discount := none,
    payment_method := .cash, cashier_id := "u1", cashier_name := "Ana",
    customer_name := none, notes := none }

def cexDB1 : DB := applyOp baseDB (Op.createSale cexSaleNeg)

def cexDB2 : DB := applyOp cexDB1 (Op.createSale cexSalePos)

def cexDB3 : DB := applyOp cexDB2 (Op.cancelSale 100 "u1")

/-- A request demanding more than the available stock. -/
def w2sale : CreateSaleInput :=
  { items := [⟨1, "Lapicero", 11, 2, 22⟩],
    subtotal := 22, total := 22, tax := none, discount := none,
    payment_method := .cash, cashier_id := "u1", cashier_name := "Ana",
    customer_name := none, notes := none }

/-- A minimal one-unit request, used to exercise the daily numbering. -/
def w3sale : CreateSaleInput :=
  { items := [⟨1, "Lapicero", 1, 2, 2⟩],
    subtotal := 2, total := 2, tax := none, discount := none,
    payment_method := .cash, cashier_id := "u1", cashier_name := "Ana",
    customer_name := none, notes := none }

def c3pair1 : DB × CreateSaleResult :=
  match SalesService.create baseDB w3sale with
  | .ok pr => pr
  | .error _ => (baseDB, { sale := newSaleRow baseDB w3sale, daily_number := 0 })

def c3db1 : DB := c3pair1.1

def c3res1 : CreateSaleResult := c3pair1.2

def c3pair2 : DB × CreateSaleResult :=
  match SalesService.create c3db1 w3sale with
  | .ok pr => pr
  | .error _ => (c3db1, { sale := newSaleRow c3db1 w3sale, daily_number := 0 })

def c3db2 : DB := c3pair2.1

def c3res2 : CreateSaleResult := c3pair2.2

/-- The store on the following calendar day (the engine clock advanced). -/
def c3dbNext : DB := { c3db2 with today := 1 }

def c3pair3 : DB × CreateSaleResult :=
  match SalesService.create c3dbNext w3sale with
  | .ok pr => pr
  | .error _ => (c3dbNext, { sale := newSaleRow c3dbNext w3sale, daily_number := 0 })

def c4pair : DB × CreateSaleResult :=
  match SalesService.create baseDB wSale with
  | .ok pr => pr
  | .error _ => (baseDB, { sale := newSaleRow baseDB wSale, daily_number := 0 })

def c4db1 : DB := c4pair.1

def c4res : CreateSaleResult := c4pair.2

def c4db2 : DB :=
  match SalesService.cancel c4db1 c4res.sale.id "u9" with
  | .ok d2 => d2
  | .error _ => c4db1

/-- A soft-deleted product (`is_active = 0`) still referenced by a sale. -/
def c5prod : ProductRow :=
  { id := 2, name := "Borrador", stock := 7, is_active := false }

def c5sale : SaleRow :=
  { id := 50, total := 3, subtotal := 3, tax := 0, discount := 0,
    payment_method := .cash, cashier_id := "u1", cashier_name := "Ana",
    customer_name := none, notes := none, daily_number := 1,
    is_active := true, created_date := 0 }

def c5item : SaleItemRow :=
  { id := 60, sale_id := 50, product_id := 2, product_name := "Borrador",
    quantity := 3, unit_price := 1, total_price := 3 }

/-- A store whose only product is soft-deleted and whose active sale 50
sold 3 units of it. -/
def c5db : DB :=
  { nextId := 100, today := 0, products := [c5prod], sales := [c5sale],
    sale_items := [c5item], stock_movements := [] }

def c5db2 : DB :=
  match SalesService.cancel c5db 50 "u1" with
  | .ok d2 => d2
  | .error _ => c5db

/-- A request with an empty item list. -/
def w6sale : CreateSaleInput :=
  { items := [], subtotal := 5, total := 5, tax := none, discount := none,
    payment_method := .cash, cashier_id := "u1", cashier_name := "Ana",
    customer_name := none, notes := none }

/-- An already-cancelled sale row. -/
def c8sale : SaleRow :=
  { id := 50, total := 3, subtotal := 3, tax := 0, discount := 0,
    payment_method := .cash, cashier_id := "u1", cashier_name := "Ana",
    customer_name := none, notes := none, daily_number := 1,
    is_active := false, created_date := 0 }

def c8db : DB :=
  { nextId := 100, today := 0, products := [], sales := [c8sale],
    sale_items := [], stock_movements := [] }

/-- A request whose snapshot fields disagree with the catalog and whose
totals do not satisfy the bookkeeping relation — accepted anyway. -/
def w9sale : CreateSaleInput :=
  { items := [⟨1, "OtroNombre", 1, 2, 999⟩],
    subtotal := 5, total := 7, tax := some 1, discount := some 2,
    payment_method := .card, cashier_id := "u1", cashier_name := "Ana",
    customer_name := none, notes := none }

def c9pair : DB × CreateSaleResult :=
  match SalesService.create baseDB w9sale with
  | .ok pr => pr
  | .error _ => (baseDB, { sale := newSaleRow baseDB w9sale, daily_number := 0 })

/-- The same product on two line items, each within the initial stock but
jointly exceeding it. -/
def dup10sale : CreateSaleInput :=
  { items := [⟨1, "Lapicero", 7, 2, 14⟩, ⟨1, "Lapicero", 7, 2, 14⟩],
    subtotal := 28, total := 28, tax := none, discount := none,
    payment_method := .cash, cashier_id := "u1", cashier_name := "Ana",
    customer_name := none, notes := none }

section Lemmas

theorem itemsQty_nil (pid : Nat) : itemsQty [] pid = 0 := rfl

theorem itemsQty_cons (a : CreateSaleItemInput) (rest : List CreateSaleItemInput)
    (pid : Nat) :
    itemsQty (a :: rest) pid =
      (if a.product_id = pid then a.quantity else 0) + itemsQty rest pid := by
  by_cases h : a.product_id = pid <;>
    simp [itemsQty, List.filter_cons, h]

theorem itemsQty_eq_zero (items : List CreateSaleItemInput) (pid : Nat)
    (h : ∀ it ∈ items, it.product_id ≠ pid) : itemsQty items pid = 0 := by
  induction items with
  | nil => rfl
  | cons a rest ih =>
      rw [itemsQty_cons]
      rw [if_neg (h a (List.mem_cons_self a rest)), ih fun it hit => h it (List.mem_cons_of_mem a hit)]
      ring

theorem rowsQty_cons (a : SaleItemRow) (rest : List SaleItemRow) (pid : Nat) :
    rowsQty (a :: rest) pid =
      (if a.product_id = pid then a.quantity else 0) + rowsQty rest pid := by
  by_cases h : a.product_id = pid <;>
    simp [rowsQty, List.filter_cons, h]

theorem rowsQty_nonneg (rows : List SaleItemRow) (pid : Nat)
    (h : ∀ it ∈ rows, 0 ≤ it.quantity) : 0 ≤ rowsQty rows pid := by
  induction rows with
  | nil => exact le_refl 0
  | cons a rest ih =>
      rw [rowsQty_cons]
      have ha := h a (List.mem_cons_self a rest)
      have hrest := ih fun it hit => h it (List.mem_cons_of_mem a hit)
      by_cases hc : a.product_id = pid
      · rw [if_pos hc]; omega
      · rw [if_neg hc]; omega

/-- `find?` by id commutes with a row transformation that preserves ids. -/
theorem find?_map_of_id (l : List ProductRow) (g : ProductRow → ProductRow)
    (hid : ∀ p, (g p).id = p.id) (pid : Nat) :
    (l.map g).find? (fun p => p.id == pid) =
      (l.find? (fun p => p.id == pid)).map g := by
  rw [List.find?_map]
  have : ((fun p : ProductRow => p.id == pid) ∘ g) =
      (fun p : ProductRow => p.id == pid) := by
    funext p
    simp [Function.comp, hid]
  rw [this]

/-- With unique product ids, `find?` by a member's id returns that member. -/
theorem find?_self_of_nodup (l : List ProductRow)
    (hnd : (l.map (fun p => p.id)).Nodup) (p : ProductRow) (hp : p ∈ l) :
    l.find? (fun q => q.id == p.id) = some p := by
  induction l with
  | nil => cases hp
  | cons a rest ih =>
      rw [List.map_cons, List.nodup_cons] at hnd
      rcases List.mem_cons.mp hp with h | h
      · subst h
        exact List.find?_cons_of_pos _ (by simp)
      · have hne : a.id ≠ p.id := by
          intro hEq
          exact hnd.1 (hEq ▸ (List.mem_map.mpr ⟨p, h, rfl⟩))
        rw [List.find?_cons_of_neg _ (by simp [hne])]
        exact ih hnd.2 h

theorem forall2_mem_left {α β : Type} {R : α → β → Prop} {l₁ : List α}
    {l₂ : List β} (h : List.Forall₂ R l₁ l₂) :
    ∀ a ∈ l₁, ∃ b ∈ l₂, R a b := by
  induction h with
  | nil => intro a ha; cases ha
  | cons hab _ ih =>
      intro a ha
      rcases List.mem_cons.mp ha with h' | h'
      · exact ⟨_, List.mem_cons_self _ _, h' ▸ hab⟩
      · rcases ih a h' with ⟨b, hb, hR⟩
        exact ⟨b, List.mem_cons_of_mem _ hb, hR⟩

theorem forall2_imp' {α β : Type} {R S : α → β → Prop} {l₁ : List α}
    {l₂ : List β} (h : List.Forall₂ R l₁ l₂)
    (himp : ∀ a b, R a b → S a b) : List.Forall₂ S l₁ l₂ := by
  induction h with
  | nil => exact List.Forall₂.nil
  | cons hab _ ih => exact List.Forall₂.cons (himp _ _ hab) ih

theorem processItems_cons (saleId : Nat) (cashierId : String)
    (a : CreateSaleItemInput) (rest : List CreateSaleItemInput) (db : DB) :
    processItems saleId cashierId (a :: rest) db =
      match db.products.find? (fun p => p.id == a.product_id) with
      | none =>
          .error (.notFound ("Producto \"" ++ a.product_name ++ "\" no encontrado"))
      | some product =>
          if product.stock < a.quantity then
            .error (.insufficientStock a.product_name product.stock a.quantity)
          else
            processItems saleId cashierId rest
              (saleStepDB saleId cashierId a db product) := rfl

theorem processItems_cons_none (saleId : Nat) (cashierId : String)
    (a : CreateSaleItemInput) (rest : List CreateSaleItemInput) (db : DB)
    (hf : db.products.find? (fun p => p.id == a.product_id) = none) :
    processItems saleId cashierId (a :: rest) db =
      .error (.notFound ("Producto \"" ++ a.product_name ++ "\" no encontrado")) := by
  rw [processItems_cons, hf]

theorem processItems_cons_some (saleId : Nat) (cashierId : String)
    (a : CreateSaleItemInput) (rest : List CreateSaleItemInput) (db : DB)
    (product : ProductRow)
    (hf : db.products.find? (fun p => p.id == a.product_id) = some product) :
    processItems saleId cashierId (a :: rest) db =
      if product.stock < a.quantity then
        .error (.insufficientStock a.product_name product.stock a.quantity)
      else
        processItems saleId cashierId rest
          (saleStepDB saleId cashierId a db product) := by
  rw [processItems_cons, hf]

theorem present_of_products_map (db db2 : DB) (g : ProductRow → ProductRow)
    (h : db2.products = db.products.map g) (hid : ∀ p, (g p).id = p.id)
    (pid : Nat) : present db2 pid = present db pid := by
  unfold present findProduct
  rw [h, find?_map_of_id _ _ hid]
  cases db.products.find? (fun p => p.id == pid) <;> rfl

/-- `processItems` characterized on success: the sales table, the clock and
(up to the per-product decrements) the product table are determined, the
item and ledger rows appended correspond one-to-one to the request items,
and every referenced product was present. -/
theorem processItems_ok_spec (saleId : Nat) (cashierId : String) :
    ∀ (items : List CreateSaleItemInput) (db db' : DB),
    processItems saleId cashierId items db = .ok db' →
    db'.sales = db.sales ∧ db'.today = db.today ∧
    db'.nextId = db.nextId + 2 * items.length ∧
    db'.products = db.products.map (fun p =>
      { p with stock := p.stock - itemsQty items p.id }) ∧
    (∃ rows, db'.sale_items = db.sale_items ++ rows ∧
      List.Forall₂ (itemRel saleId) rows items) ∧
    (∃ ms, db'.stock_movements = db.stock_movements ++ ms ∧
      List.Forall₂ (movRel saleId cashierId) ms items) ∧
    (∀ it ∈ items, present db it.product_id = true) := by
  intro items
  induction items with
  | nil =>
      intro db db' h
      have hdb : db = db' := by
        simpa [processItems] using h
      subst hdb
      refine ⟨rfl, rfl, by simp, ?_, ⟨[], by simp, List.Forall₂.nil⟩,
        ⟨[], by simp, List.Forall₂.nil⟩, by intro it hit; cases hit⟩
      have : (fun p : ProductRow =>
          { p with stock := p.stock - itemsQty [] p.id }) = id := by
        funext p
        simp [itemsQty_nil]
      rw [this, List.map_id]
  | cons a rest ih =>
      intro db db' h
      cases hf : db.products.find? (fun p => p.id == a.product_id) with
      | none => rw [processItems_cons_none _ _ _ _ _ hf] at h; cases h
      | some product =>
          rw [processItems_cons_some _ _ _ _ _ _ hf] at h
          by_cases hst : product.stock < a.quantity
          · rw [if_pos hst] at h; cases h
          · rw [if_neg hst] at h
            obtain ⟨hsales, htoday, hnext, hprod, ⟨rows', hrows', hf2⟩,
              ⟨ms', hms', hf2m⟩, hpres⟩ := ih (saleStepDB saleId cashierId a db product) db' h
            have hid1 : ∀ p : ProductRow,
                ((fun p : ProductRow => if p.id = a.product_id then
                  { p with stock := p.stock - a.quantity } else p) p).id = p.id := by
              intro p
              by_cases hpa : p.id = a.product_id <;> simp [hpa]
            refine ⟨hsales, htoday,
              by simp only [saleStepDB, List.length_cons] at hnext ⊢; omega, ?_, ?_, ?_, ?_⟩
            · rw [hprod]
              show (db.products.map fun p =>
                if p.id = a.product_id then { p with stock := p.stock - a.quantity } else p).map
                  (fun p => { p with stock := p.stock - itemsQty rest p.id }) = _
              rw [List.map_map]
              apply List.map_congr_left
              intro p _
              by_cases hpa : p.id = a.product_id
              · have hq : (if a.product_id = p.id then a.quantity else 0) = a.quantity :=
                  if_pos hpa.symm
                simp only [Function.comp_apply, if_pos hpa, itemsQty_cons, hq,
                  ProductRow.mk.injEq]
                exact ⟨trivial, trivial, by omega, trivial⟩
              · have hq : (if a.product_id = p.id then a.quantity else 0) = 0 :=
                  if_neg (fun hEq => hpa hEq.symm)
                simp only [Function.comp_apply, if_neg hpa, itemsQty_cons, hq,
                  ProductRow.mk.injEq]
                exact ⟨trivial, trivial, by omega, trivial⟩
            · refine ⟨(⟨db.nextId, saleId, a.product_id, a.product_name,
                  a.quantity, a.unit_price, a.total_price⟩ : SaleItemRow) :: rows', ?_, ?_⟩
              · rw [hrows']
                show (db.sale_items ++ [_]) ++ rows' = _
                rw [List.append_assoc, List.singleton_append]
              · exact List.Forall₂.cons ⟨rfl, rfl, rfl, rfl, rfl, rfl⟩ hf2
            · refine ⟨(⟨db.nextId + 1, a.product_id, .sale, a.quantity,
                  product.stock, product.stock - a.quantity,
                  some saleId, none, some cashierId⟩ : StockMovementRow) :: ms', ?_, ?_⟩
              · rw [hms']
                show (db.stock_movements ++ [_]) ++ ms' = _
                rw [List.append_assoc, List.singleton_append]
              · exact List.Forall₂.cons ⟨rfl, rfl, rfl, rfl, rfl⟩ hf2m
            · intro it hit
              rcases List.mem_cons.mp hit with h' | h'
              · subst h'
                simp [present, findProduct, hf]
              · have hp := hpres it h'
                rwa [present_of_products_map db (saleStepDB saleId cashierId a db product)
                  _ rfl hid1] at hp

/-- How one step of the item loop changes the observable stock of any
product: the processed product's stock drops by the item's quantity, every
other product is untouched. -/
theorem stockOf_saleStepDB (saleId : Nat) (cashierId : String)
    (a : CreateSaleItemInput) (db : DB) (product : ProductRow) (pid : Nat) :
    stockOf (saleStepDB saleId cashierId a db product) pid =
      (stockOf db pid).map
        (fun s => if pid = a.product_id then s - a.quantity else s) := by
  have hid1 : ∀ p : ProductRow,
      ((fun p : ProductRow => if p.id = a.product_id then
        { p with stock := p.stock - a.quantity } else p) p).id = p.id := by
    intro p
    by_cases hpa : p.id = a.product_id <;> simp [hpa]
  unfold stockOf findProduct
  show ((db.products.map _).find? _).map _ = _
  rw [find?_map_of_id _ _ hid1]
  cases hf : db.products.find? (fun p => p.id == pid) with
  | none => rfl
  | some p =>
      have hp : p.id = pid := by simpa using List.find?_some hf
      simp only [Option.map_some']
      by_cases hpa : pid = a.product_id
      · rw [if_pos (hp.trans hpa), if_pos hpa]
      · rw [if_neg (fun hEq => hpa (hp.symm.trans hEq)), if_neg hpa]

/-- On success, every line item's demanded total (summed over all the
request's line items for the same product, duplicates included) is covered
by the stock the product had when `processItems` started: the per-item
check reads the stock as already decremented by the earlier items. -/
theorem processItems_ok_bound (saleId : Nat) (cashierId : String) :
    ∀ (items : List CreateSaleItemInput) (db db' : DB),
    processItems saleId cashierId items db = .ok db' →
    ∀ it ∈ items, ∀ s, stockOf db it.product_id = some s →
      itemsQty items it.product_id ≤ s := by
  intro items
  induction items with
  | nil => intro db db' _ it hit; cases hit
  | cons a rest ih =>
      intro db db' h it hit s hs
      cases hf : db.products.find? (fun p => p.id == a.product_id) with
      | none => rw [processItems_cons_none _ _ _ _ _ hf] at h; cases h
      | some product =>
          rw [processItems_cons_some _ _ _ _ _ _ hf] at h
          by_cases hst : product.stock < a.quantity
          · rw [if_pos hst] at h; cases h
          · rw [if_neg hst] at h
            rw [itemsQty_cons]
            by_cases hpa : it.product_id = a.product_id
            · -- the head line concerns the same product as `it`
              have hps : product.stock = s := by
                unfold stockOf findProduct at hs
                rw [hpa, hf] at hs
                simpa using hs
              have hq : (if a.product_id = it.product_id then a.quantity else 0)
                  = a.quantity := if_pos hpa.symm
              rw [hq]
              by_cases hmem : ∃ it2 ∈ rest, it2.product_id = it.product_id
              · obtain ⟨it2, hit2, hpid2⟩ := hmem
                have hs' : stockOf db a.product_id = some s := by
                  rw [← hpa]; exact hs
                have hs2 : stockOf (saleStepDB saleId cashierId a db product)
                    it2.product_id = some (s - a.quantity) := by
                  rw [stockOf_saleStepDB, hpid2, hpa, hs']
                  simp
                have := ih _ db' h it2 hit2 _ hs2
                rw [hpid2] at this
                omega
              · have h0 : itemsQty rest it.product_id = 0 :=
                  itemsQty_eq_zero _ _ (by
                    intro it2 hit2 hEq
                    exact hmem ⟨it2, hit2, hEq⟩)
                omega
            · -- the head line concerns a different product
              have hq : (if a.product_id = it.product_id then a.quantity else 0)
                  = 0 := if_neg (fun hEq => hpa hEq.symm)
              rw [hq]
              have hitr : it ∈ rest := by
                rcases List.mem_cons.mp hit with h' | h'
                · exact absurd (h' ▸ rfl) hpa
                · exact h'
              have hs2 : stockOf (saleStepDB saleId cashierId a db product)
                  it.product_id = some s := by
                rw [stockOf_saleStepDB, hs]
                simp [hpa]
              have := ih _ db' h it hitr _ hs2
              omega

theorem revertItems_cons_none (saleId : Nat) (userId : String) (saleDaily : Int)
    (item : SaleItemRow) (rest : List SaleItemRow) (db : DB)
    (hf : db.products.find? (fun p => p.id == item.product_id) = none) :
    revertItems saleId userId saleDaily (item :: rest) db =
      revertItems saleId userId saleDaily rest db := by
  rw [revertItems, hf]

theorem revertItems_cons_some (saleId : Nat) (userId : String) (saleDaily : Int)
    (item : SaleItemRow) (rest : List SaleItemRow) (db : DB) (product : ProductRow)
    (hf : db.products.find? (fun p => p.id == item.product_id) = some product) :
    revertItems saleId userId saleDaily (item :: rest) db =
      revertItems saleId userId saleDaily rest
        (cancelStepDB saleId userId saleDaily item db product) := by
  rw [revertItems, hf]
  rfl

/-- The reversal loop characterized: the sales table, the clock and the
stored sale items are untouched, every product's stock grows by the summed
quantity its rows carry (soft-deleted products included; items whose
product row no longer exists contribute nothing), and exactly one
compensating `adjustment` ledger row referencing the sale is appended per
item whose product row exists. -/
theorem revertItems_spec (saleId : Nat) (userId : String) (saleDaily : Int) :
    ∀ (rows : List SaleItemRow) (db : DB),
    (revertItems saleId userId saleDaily rows db).sales = db.sales ∧
    (revertItems saleId userId saleDaily rows db).today = db.today ∧
    (revertItems saleId userId saleDaily rows db).sale_items = db.sale_items ∧
    db.nextId ≤ (revertItems saleId userId saleDaily rows db).nextId ∧
    (revertItems saleId userId saleDaily rows db).products =
      db.products.map (fun p => { p with stock := p.stock + rowsQty rows p.id }) ∧
    ∃ ms, (revertItems saleId userId saleDaily rows db).stock_movements =
        db.stock_movements ++ ms ∧
      List.Forall₂ (cancelMovRel saleId userId) ms
        (rows.filter (fun it => present db it.product_id)) := by
  intro rows
  induction rows with
  | nil =>
      intro db
      have hrev : revertItems saleId userId saleDaily [] db = db := rfl
      rw [hrev]
      refine ⟨rfl, rfl, rfl, le_refl _, ?_, ⟨[], by rw [List.append_nil], ?_⟩⟩
      · have : (fun p : ProductRow =>
            { p with stock := p.stock + rowsQty [] p.id }) = id := by
          funext p
          simp [rowsQty]
        rw [this, List.map_id]
      · show List.Forall₂ _ [] (List.filter _ [])
        simp
  | cons r rest ih =>
      intro db
      cases hf : db.products.find? (fun p => p.id == r.product_id) with
      | none =>
          rw [revertItems_cons_none _ _ _ _ _ _ hf]
          obtain ⟨h1, h2, h3, h4, h5, ms, h6, h7⟩ := ih db
          have habs : ∀ p ∈ db.products, p.id ≠ r.product_id := by
            intro p hp hEq
            have := List.find?_eq_none.mp hf p hp
            simp [hEq] at this
          refine ⟨h1, h2, h3, h4, ?_, ms, h6, ?_⟩
          · rw [h5]
            apply List.map_congr_left
            intro p hp
            have hq : (if r.product_id = p.id then r.quantity else 0) = 0 :=
              if_neg (fun hEq => habs p hp hEq.symm)
            simp only [rowsQty_cons, hq, ProductRow.mk.injEq]
            exact ⟨trivial, trivial, by omega, trivial⟩
          · have hpr : present db r.product_id = false := by
              simp [present, findProduct, hf]
            rw [List.filter_cons, if_neg (by simp [hpr])]
            exact h7
      | some product =>
          rw [revertItems_cons_some _ _ _ _ _ _ _ hf]
          obtain ⟨h1, h2, h3, h4, h5, ms, h6, h7⟩ :=
            ih (cancelStepDB saleId userId saleDaily r db product)
          have hid1 : ∀ p : ProductRow,
              ((fun p : ProductRow => if p.id = r.product_id then
                { p with stock := p.stock + r.quantity } else p) p).id = p.id := by
            intro p
            by_cases hpa : p.id = r.product_id <;> simp [hpa]
          refine ⟨h1, h2, h3, ?_, ?_, ?_⟩
          · calc db.nextId ≤ db.nextId + 1 := by omega
              _ ≤ _ := h4
          · rw [h5]
            show (db.products.map _).map _ = _
            rw [List.map_map]
            apply List.map_congr_left
            intro p _
            by_cases hpa : p.id = r.product_id
            · have hq : (if r.product_id = p.id then r.quantity else 0) =
                  r.quantity := if_pos hpa.symm
              simp only [Function.comp_apply, if_pos hpa, rowsQty_cons, hq,
                ProductRow.mk.injEq]
              exact ⟨trivial, trivial, by omega, trivial⟩
            · have hq : (if r.product_id = p.id then r.quantity else 0) = 0 :=
                if_neg (fun hEq => hpa hEq.symm)
              simp only [Function.comp_apply, if_neg hpa, rowsQty_cons, hq,
                ProductRow.mk.injEq]
              exact ⟨trivial, trivial, by omega, trivial⟩
          · refine ⟨(⟨db.nextId, r.product_id, .adjustment, r.quantity,
                product.stock, product.stock + r.quantity, some saleId,
                some ("Cancelación de venta #" ++ toString saleDaily),
                some userId⟩ : StockMovementRow) :: ms, ?_, ?_⟩
            · rw [h6]
              show (db.stock_movements ++ [_]) ++ ms = _
              rw [List.append_assoc, List.singleton_append]
            · have hpr : present db r.product_id = true := by
                simp [present, findProduct, hf]
              rw [List.filter_cons, if_pos (by simp [hpr])]
              refine List.Forall₂.cons ⟨rfl, rfl, rfl, rfl, rfl⟩ ?_
              have hfc : rest.filter (fun it =>
                  present (cancelStepDB saleId userId saleDaily r db product)
                    it.product_id) =
                  rest.filter (fun it => present db it.product_id) := by
                apply List.filter_congr
                intro it _
                exact present_of_products_map db
                  (cancelStepDB saleId userId saleDaily r db product) _ rfl hid1
                  it.product_id
              rwa [hfc] at h7

theorem create_eq (db : DB) (d : CreateSaleInput) :
    SalesService.create db d =
      if d.items.isEmpty then
        .error (.validation "La venta debe tener al menos un producto")
      else if d.total ≤ 0 then
        .error (.validation "El total debe ser mayor a cero")
      else
        match processItems db.nextId d.cashier_id d.items
            ({ db with
                nextId := db.nextId + 1
                sales := db.sales ++ [newSaleRow db d] }) with
        | .error e => .error e
        | .ok db3 =>
            match db3.sales.find? (fun s => s.id == db.nextId) with
            | some sale =>
                .ok (db3, { sale := sale, daily_number := nextDailyNumber db })
            | none => .error (.notFound "Venta no encontrada") := rfl

/-- `SalesService.create` characterized on success (for a well-formed
store): the request passed validation, the returned header is the inserted
row, the daily number is the computed one, the sale header is appended, all
stocks drop by the summed requested quantities, and the item / ledger rows
appended snapshot the request verbatim. -/
theorem create_ok_spec (db : DB) (d : CreateSaleInput) (db' : DB)
    (res : CreateSaleResult) (hWF : WF db)
    (h : SalesService.create db d = .ok (db', res)) :
    d.items.isEmpty = false ∧ 0 < d.total ∧
    res.sale = newSaleRow db d ∧
    res.daily_number = nextDailyNumber db ∧
    db'.sales = db.sales ++ [newSaleRow db d] ∧
    db'.today = db.today ∧
    db'.nextId = db.nextId + 1 + 2 * d.items.length ∧
    db'.products = db.products.map (fun p =>
      { p with stock := p.stock - itemsQty d.items p.id }) ∧
    (∃ rows, db'.sale_items = db.sale_items ++ rows ∧
      List.Forall₂ (itemRel db.nextId) rows d.items) ∧
    (∃ ms, db'.stock_movements = db.stock_movements ++ ms ∧
      List.Forall₂ (movRel db.nextId d.cashier_id) ms d.items) ∧
    (∀ it ∈ d.items, present db it.product_id = true) := by
  rw [create_eq] at h
  by_cases h1 : d.items.isEmpty
  · rw [if_pos h1] at h; cases h
  · rw [if_neg h1] at h
    by_cases h2 : d.total ≤ 0
    · rw [if_pos h2] at h; cases h
    · rw [if_neg h2] at h
      split at h
      next e heq => cases h
      next db3 heq =>
        split at h
        next sale hfind =>
          injection h with h3
          cases h3
          obtain ⟨hsales, htoday, hnext, hprod, hrows, hms, hpres⟩ :=
            processItems_ok_spec db.nextId d.cashier_id d.items _ _ heq
          have hsales' : db'.sales = db.sales ++ [newSaleRow db d] := hsales
          have hsale : sale = newSaleRow db d := by
            rw [hsales', List.find?_append] at hfind
            have hnone : db.sales.find? (fun s => s.id == db.nextId) = none := by
              apply List.find?_eq_none.mpr
              intro s hsmem
              have := hWF.2.1 s hsmem
              simp only [beq_iff_eq]
              omega
            rw [hnone] at hfind
            have : ([newSaleRow db d].find? (fun s => s.id == db.nextId)) =
                some (newSaleRow db d) :=
              List.find?_cons_of_pos _ (by simp [newSaleRow])
            simp only [Option.none_or] at hfind
            rw [this] at hfind
            exact (Option.some.injEq _ _ ▸ hfind).symm
          refine ⟨by simpa using h1, by omega, by rw [hsale], rfl, hsales', htoday,
            by simpa using hnext, hprod, hrows, hms, hpres⟩
        next hfind => cases h

/-- `SalesService.create` success implies the request's total demand per
product is covered by that product's stock before the call. -/
theorem create_ok_bound (db : DB) (d : CreateSaleInput) (db' : DB)
    (res : CreateSaleResult)
    (h : SalesService.create db d = .ok (db', res)) :
    ∀ it ∈ d.items, ∀ s, stockOf db it.product_id = some s →
      itemsQty d.items it.product_id ≤ s := by
  rw [create_eq] at h
  by_cases h1 : d.items.isEmpty
  · rw [if_pos h1] at h; cases h
  · rw [if_neg h1] at h
    by_cases h2 : d.total ≤ 0
    · rw [if_pos h2] at h; cases h
    · rw [if_neg h2] at h
      split at h
      next e heq => cases h
      next db3 heq =>
        intro it hit s hs
        exact processItems_ok_bound db.nextId d.cashier_id d.items _ db3 heq it hit s hs

theorem cancel_eq (db : DB) (sid : Nat) (userId : String) :
    SalesService.cancel db sid userId =
      match db.sales.find? (fun s => s.id == sid && s.is_active) with
      | none => .error (.notFound "Venta no encontrada o ya cancelada")
      | some sale => .ok (cancelResultDB db sid userId sale) := rfl

/-- `SalesService.cancel` characterized on success: some active sale row
with the requested id was found; the clock and the stored sale items are
untouched; every product's stock grows by the total quantity the sale's
items carry for it (items whose product row is gone contribute nothing);
the sale rows with that id are marked inactive; and one compensating
`adjustment` ledger row referencing the sale is appended per item whose
product row still exists. -/
theorem cancel_ok_spec (db : DB) (sid : Nat) (userId : String) (db2 : DB)
    (h : SalesService.cancel db sid userId = .ok db2) :
    ∃ sale, db.sales.find? (fun s => s.id == sid && s.is_active) = some sale ∧
      db2.today = db.today ∧
      db2.sale_items = db.sale_items ∧
      db.nextId ≤ db2.nextId ∧
      db2.products = db.products.map (fun p =>
        { p with stock := p.stock +
            rowsQty (db.sale_items.filter (fun it => it.sale_id == sid)) p.id }) ∧
      db2.sales = db.sales.map (fun s =>
        if s.id = sid then { s with is_active := false } else s) ∧
      (∃ ms, db2.stock_movements = db.stock_movements ++ ms ∧
        List.Forall₂ (cancelMovRel sid userId) ms
          ((db.sale_items.filter (fun it => it.sale_id == sid)).filter
            (fun it => present db it.product_id))) := by
  rw [cancel_eq] at h
  split at h
  next hfind => cases h
  next sale hfind =>
    injection h with h2
    obtain ⟨hsl, htd, hsi, hnx, hpr, ms, hmv, hf2⟩ :=
      revertItems_spec sid userId sale.daily_number
        (db.sale_items.filter (fun it => it.sale_id == sid)) db
    refine ⟨sale, hfind, ?_, ?_, ?_, ?_, ?_, ms, ?_, hf2⟩
    · rw [← h2]; exact htd
    · rw [← h2]; exact hsi
    · rw [← h2]; exact hnx
    · rw [← h2]; exact hpr
    · rw [← h2]
      show (revertItems sid userId sale.daily_number
        (db.sale_items.filter (fun it => it.sale_id == sid)) db).sales.map _ = _
      rw [hsl]
    · rw [← h2]; exact hmv

theorem adjustStock_eq (db : DB) (productId : Nat) (quantity : Int)
    (reason userId : String) :
    ProductService.adjustStock db productId quantity reason userId =
      match db.products.find? (fun p => p.id == productId) with
      | none => .error (.notFound "Producto no encontrado")
      | some product =>
          if product.stock + quantity < 0 then
            .error (.invalidState "El stock no puede ser negativo")
          else .ok (adjustResultDB db productId quantity reason userId product) := rfl

theorem nodup_ids_map (l : List ProductRow) (g : ProductRow → ProductRow)
    (hid : ∀ p, (g p).id = p.id)
    (h : (l.map (fun p => p.id)).Nodup) :
    ((l.map g).map (fun p => p.id)).Nodup := by
  rw [List.map_map]
  have heq : ((fun p : ProductRow => p.id) ∘ g) = (fun p : ProductRow => p.id) :=
    funext fun p => hid p
  rw [heq]
  exact h

theorem applyOp_createSale_error (db : DB) (d : CreateSaleInput) (e : SaleError)
    (hc : SalesService.create db d = .error e) :
    applyOp db (.createSale d) = db := by
  simp [applyOp, hc]

theorem applyOp_cancel_error (db : DB) (sid : Nat) (userId : String) (e : SaleError)
    (hc : SalesService.cancel db sid userId = .error e) :
    applyOp db (.cancelSale sid userId) = db := by
  simp [applyOp, hc]

theorem applyOp_adjust_error (db : DB) (pid : Nat) (q : Int) (reason userId : String)
    (e : SaleError)
    (hc : ProductService.adjustStock db pid q reason userId = .error e) :
    applyOp db (.adjustStock pid q reason userId) = db := by
  simp [applyOp, hc]

theorem forall2_comp {α β γ : Type} {R : α → β → Prop} {S : β → γ → Prop}
    {T : α → γ → Prop} (hcomp : ∀ a b c, R a b → S b c → T a c) :
    ∀ {l₁ : List α} {l₂ : List β} {l₃ : List γ},
    List.Forall₂ R l₁ l₂ → List.Forall₂ S l₂ l₃ → List.Forall₂ T l₁ l₃ := by
  intro l₁ l₂ l₃ h₁
  induction h₁ generalizing l₃ with
  | nil =>
      intro h₂
      cases h₂
      exact List.Forall₂.nil
  | cons hab _ ih =>
      intro h₂
      cases h₂ with
      | cons hbc htail =>
          exact List.Forall₂.cons (hcomp _ _ _ hab hbc) (ih htail)

/-- Stored rows that snapshot the request's line items demand the same
total quantity per product as the request. -/
theorem rowsQty_eq_itemsQty (saleId : Nat) (rows : List SaleItemRow)
    (items : List CreateSaleItemInput)
    (h : List.Forall₂ (itemRel saleId) rows items) (pid : Nat) :
    rowsQty rows pid = itemsQty items pid := by
  induction h with
  | nil => rfl
  | cons hab _ ih =>
      rw [rowsQty_cons, itemsQty_cons, hab.2.1, hab.2.2.2.1, ih]

/-- A successful `create` leaves every stock non-negative (no sign
restriction on the requested quantities is needed: the per-item check plus
the threading of the running stock already force the final value up). -/
theorem create_preserves_stocksNonneg (db : DB) (d : CreateSaleInput)
    (db' : DB) (res : CreateSaleResult) (hWF : WF db) (hS : stocksNonneg db)
    (hc : SalesService.create db d = .ok (db', res)) : stocksNonneg db' := by
  obtain ⟨_, _, _, _, _, _, _, hprod, _, _, _⟩ := create_ok_spec db d db' res hWF hc
  have hbound := create_ok_bound db d db' res hc
  intro p' hp'
  rw [hprod] at hp'
  obtain ⟨p, hp, rfl⟩ := List.mem_map.mp hp'
  show 0 ≤ p.stock - itemsQty d.items p.id
  have hps := hS p hp
  by_cases hmem : ∃ it ∈ d.items, it.product_id = p.id
  · obtain ⟨it, hit, hpid⟩ := hmem
    have hfind := find?_self_of_nodup db.products hWF.1 p hp
    have hs : stockOf db p.id = some p.stock := by
      simp [stockOf, findProduct, hfind]
    have := hbound it hit p.stock (by rw [hpid]; exact hs)
    rw [hpid] at this
    omega
  · rw [itemsQty_eq_zero d.items p.id (fun it hit hEq => hmem ⟨it, hit, hEq⟩)]
    omega

/-- One operation (with sale line quantities respecting the data model)
preserves well-formedness, non-negative stocks and non-negative stored item
quantities — whether it succeeds or rolls back. -/
theorem applyOp_inv (db : DB) (op : Op) (hWF : WF db) (hS : stocksNonneg db)
    (hI : itemsNonneg db) (hop : opOk op) :
    WF (applyOp db op) ∧ stocksNonneg (applyOp db op) ∧ itemsNonneg (applyOp db op) := by
  cases op with
  | createSale d =>
      cases hc : SalesService.create db d with
      | error e =>
          rw [applyOp_createSale_error db d e hc]
          exact ⟨hWF, hS, hI⟩
      | ok pr =>
          obtain ⟨db', res⟩ := pr
          have happ : applyOp db (.createSale d) = db' := by simp [applyOp, hc]
          rw [happ]
          obtain ⟨_, _, _, _, hsales, _, hnext, hprod, ⟨rows, hrows, hf2⟩,
            _, _⟩ := create_ok_spec db d db' res hWF hc
          have hbound := create_ok_bound db d db' res hc
          refine ⟨⟨?_, ?_, ?_⟩, ?_, ?_⟩
          · rw [hprod]
            exact nodup_ids_map _ _ (fun p => rfl) hWF.1
          · rw [hsales]
            intro s hs
            rcases List.mem_append.mp hs with h' | h'
            · have := hWF.2.1 s h'
              omega
            · have : s = newSaleRow db d := by simpa using h'
              rw [this]
              show db.nextId < db'.nextId
              omega
          · rw [hrows]
            intro it hit
            rcases List.mem_append.mp hit with h' | h'
            · have := hWF.2.2 it h'
              omega
            · obtain ⟨b, _, hrel⟩ := forall2_mem_left hf2 it h'
              rw [hrel.1]
              omega
          · exact create_preserves_stocksNonneg db d db' res hWF hS hc
          · intro r hr
            rw [hrows] at hr
            rcases List.mem_append.mp hr with h' | h'
            · exact hI r h'
            · obtain ⟨it, hit, hrel⟩ := forall2_mem_left hf2 r h'
              rw [hrel.2.2.2.1]
              exact hop it hit
  | cancelSale sid userId =>
      cases hc : SalesService.cancel db sid userId with
      | error e =>
          rw [applyOp_cancel_error db sid userId e hc]
          exact ⟨hWF, hS, hI⟩
      | ok db2 =>
          have happ : applyOp db (.cancelSale sid userId) = db2 := by
            simp [applyOp, hc]
          rw [happ]
          obtain ⟨sale, _, _, hsi, hnx, hpr, hsl, _⟩ := cancel_ok_spec db sid userId db2 hc
          refine ⟨⟨?_, ?_, ?_⟩, ?_, ?_⟩
          · rw [hpr]
            exact nodup_ids_map _ _ (fun p => rfl) hWF.1
          · rw [hsl]
            intro s hs
            obtain ⟨s0, hs0, rfl⟩ := List.mem_map.mp hs
            have hid : (if s0.id = sid then { s0 with is_active := false } else s0).id
                = s0.id := by
              by_cases h' : s0.id = sid <;> simp [h']
            rw [hid]
            have := hWF.2.1 s0 hs0
            omega
          · rw [hsi]
            intro it hit
            have := hWF.2.2 it hit
            omega
          · intro p' hp'
            rw [hpr] at hp'
            obtain ⟨p, hp, rfl⟩ := List.mem_map.mp hp'
            show 0 ≤ p.stock + rowsQty _ p.id
            have h1 := hS p hp
            have h2 := rowsQty_nonneg
              (db.sale_items.filter (fun it => it.sale_id == sid)) p.id
              (fun it hit => hI it (List.mem_filter.mp hit).1)
            omega
          · intro r hr
            rw [hsi] at hr
            exact hI r hr
  | adjustStock pid q reason userId =>
      cases hc : ProductService.adjustStock db pid q reason userId with
      | error e =>
          rw [applyOp_adjust_error db pid q reason userId e hc]
          exact ⟨hWF, hS, hI⟩
      | ok db2 =>
          have happ : applyOp db (.adjustStock pid q reason userId) = db2 := by
            simp [applyOp, hc]
          rw [happ]
          rw [adjustStock_eq] at hc
          split at hc
          next hfind => cases hc
          next product hfind =>
            split at hc
            · cases hc
            next hq =>
              injection hc with hc2
              subst hc2
              refine ⟨⟨?_, ?_, ?_⟩, ?_, ?_⟩
              · simp only [adjustResultDB]
                apply nodup_ids_map _ _ ?_ hWF.1
                intro p
                by_cases h' : p.id = pid <;> simp [h']
              · intro s hs
                have := hWF.2.1 s hs
                show s.id < db.nextId + 1
                omega
              · intro it hit
                have := hWF.2.2 it hit
                show it.sale_id < db.nextId + 1
                omega
              · intro p' hp'
                simp only [adjustResultDB, List.mem_map] at hp'
                obtain ⟨p, hp, rfl⟩ := hp'
                by_cases h' : p.id = pid
                · rw [if_pos h']
                  show 0 ≤ product.stock + q
                  omega
                · rw [if_neg h']
                  exact hS p hp
              · exact hI

/-- Any sequence of operations whose sale requests carry non-negative
quantities preserves the three store invariants. -/
theorem runOps_inv : ∀ (ops : List Op) (db : DB), WF db → stocksNonneg db →
    itemsNonneg db → (∀ op ∈ ops, opOk op) →
    WF (runOps db ops) ∧ stocksNonneg (runOps db ops) ∧ itemsNonneg (runOps db ops) := by
  intro ops
  induction ops with
  | nil => intro db h1 h2 h3 _; exact ⟨h1, h2, h3⟩
  | cons op ops ih =>
      intro db h1 h2 h3 hops
      have hstep := applyOp_inv db op h1 h2 h3 (hops op (List.mem_cons_self op ops))
      have : runOps db (op :: ops) = runOps (applyOp db op) ops := rfl
      rw [this]
      exact ih (applyOp db op) hstep.1 hstep.2.1 hstep.2.2
        (fun op2 hop2 => hops op2 (List.mem_cons_of_mem op hop2))

/-- One step of the item loop does not change the observable stock of any
other product. -/
theorem stockOf_saleStepDB_other (saleId : Nat) (cashierId : String)
    (a : CreateSaleItemInput) (db : DB) (product : ProductRow) (pid : Nat)
    (hne : pid ≠ a.product_id) :
    stockOf (saleStepDB saleId cashierId a db product) pid = stockOf db pid := by
  rw [stockOf_saleStepDB]
  cases stockOf db pid <;> simp [hne]

/-- When every line item's product exists, the item ids are pairwise
distinct, and some line item demands more than its product's stock, the
item loop fails with `insufficientStock` naming that item's product, its
stock and the requested quantity. -/
theorem processItems_first_fail (saleId : Nat) (cashierId : String) :
    ∀ (items : List CreateSaleItemInput) (db : DB),
    (items.map (fun it => it.product_id)).Nodup →
    (∀ it ∈ items, present db it.product_id = true) →
    (∃ it ∈ items, ∃ s, stockOf db it.product_id = some s ∧ s < it.quantity) →
    ∃ it ∈ items, ∃ s, stockOf db it.product_id = some s ∧ s < it.quantity ∧
      processItems saleId cashierId items db =
        .error (.insufficientStock it.product_name s it.quantity) := by
  intro items
  induction items with
  | nil =>
      rintro db _ _ ⟨it, hit, _⟩
      cases hit
  | cons a rest ih =>
      rintro db hnd hpres ⟨it, hit, s, hs, hlt⟩
      rw [List.map_cons, List.nodup_cons] at hnd
      cases hf : db.products.find? (fun p => p.id == a.product_id) with
      | none =>
          have := hpres a (List.mem_cons_self a rest)
          rw [present, findProduct, hf] at this
          cases this
      | some product =>
          have hsa : stockOf db a.product_id = some product.stock := by
            simp [stockOf, findProduct, hf]
          by_cases hst : product.stock < a.quantity
          · exact ⟨a, List.mem_cons_self a rest, product.stock, hsa, hst,
              by rw [processItems_cons_some _ _ _ _ _ _ hf, if_pos hst]⟩
          · have hid1 : ∀ p : ProductRow,
                ((fun p : ProductRow => if p.id = a.product_id then
                  { p with stock := p.stock - a.quantity } else p) p).id = p.id := by
              intro p
              by_cases hpa : p.id = a.product_id <;> simp [hpa]
            have hitr : it ∈ rest := by
              rcases List.mem_cons.mp hit with h' | h'
              · exfalso
                rw [h'] at hs hlt
                rw [hsa] at hs
                have : product.stock = s := Option.some.inj hs
                omega
              · exact h'
            have hne : it.product_id ≠ a.product_id := by
              intro hEq
              exact hnd.1 (hEq ▸ List.mem_map.mpr ⟨it, hitr, rfl⟩)
            have hpres2 : ∀ it2 ∈ rest,
                present (saleStepDB saleId cashierId a db product)
                  it2.product_id = true := by
              intro it2 h2
              rw [present_of_products_map db
                (saleStepDB saleId cashierId a db product) _ rfl hid1]
              exact hpres it2 (List.mem_cons_of_mem a h2)
            have hfail2 : ∃ it2 ∈ rest, ∃ s2,
                stockOf (saleStepDB saleId cashierId a db product)
                  it2.product_id = some s2 ∧ s2 < it2.quantity :=
              ⟨it, hitr, s,
                by rw [stockOf_saleStepDB_other _ _ _ _ _ _ hne]; exact hs, hlt⟩
            obtain ⟨it2, hit2, s2, hs2, hlt2, herr⟩ :=
              ih (saleStepDB saleId cashierId a db product) hnd.2 hpres2 hfail2
            have hne2 : it2.product_id ≠ a.product_id := by
              intro hEq
              exact hnd.1 (hEq ▸ List.mem_map.mpr ⟨it2, hit2, rfl⟩)
            refine ⟨it2, List.mem_cons_of_mem a hit2, s2, ?_, hlt2, ?_⟩
            · rw [← stockOf_saleStepDB_other saleId cashierId a db product _ hne2]
              exact hs2
            · rw [processItems_cons_some _ _ _ _ _ _ hf, if_neg hst]
              exact herr

end Lemmas

section Claims

/-- C1 (counterexample to the claim as stated): starting from a well-formed
store whose only product has stock 10, the sequence
`createSale` (one line item with quantity -5, which `create` accepts and
which raises the stock to 15), `createSale` (15 units, stock drops to 0),
`cancel` of the first sale (adds its -5 back) consists of three operations
that each individually succeeded, yet leaves the product with stock -5. -/
theorem c1_counterexample :
    WF baseDB ∧ stocksNonneg baseDB ∧ itemsNonneg baseDB ∧
    (SalesService.create baseDB cexSaleNeg).isOk = true ∧
    (SalesService.create cexDB1 cexSalePos).isOk = true ∧
    (SalesService.cancel cexDB2 100 "u1").isOk = true ∧
    cexDB3 = runOps baseDB
      [Op.createSale cexSaleNeg, Op.createSale cexSalePos, Op.cancelSale 100 "u1"] ∧
    stockOf cexDB3 1 = some (-5) ∧
    ¬stocksNonneg cexDB3 := by
  refine ⟨?_, ?_, ?_, rfl, rfl, rfl, rfl, rfl, ?_⟩
  · unfold WF; decide
  · unfold stocksNonneg; decide
  · unfold itemsNonneg; decide
  · unfold stocksNonneg; decide

/-- C1 (amended): for every well-formed store with non-negative stocks and
non-negative stored sale-item quantities, after any sequence of
`createSale` / `cancel` / `adjustStock` operations in which every sale
request's line items carry non-negative quantities (the data model's
`quantity > 0` invariant, which `create` itself does not check), every
product's stock is still non-negative — whether each operation succeeded or
rolled back. -/
theorem c1_stock_nonneg (ops : List Op) (db : DB) (hWF : WF db)
    (hS : stocksNonneg db) (hI : itemsNonneg db)
    (hops : ∀ op ∈ ops, opOk op) :
    stocksNonneg (runOps db ops) :=
  (runOps_inv ops db hWF hS hI hops).2.1

theorem c1_witness :
    WF baseDB ∧ stocksNonneg baseDB ∧ itemsNonneg baseDB ∧
    (∀ op ∈ [Op.createSale wSale, Op.adjustStock 1 (-3) "merma" "u1",
      Op.cancelSale 100 "u1"], opOk op) ∧
    stocksNonneg (runOps baseDB [Op.createSale wSale,
      Op.adjustStock 1 (-3) "merma" "u1", Op.cancelSale 100 "u1"]) := by
  have hWF : WF baseDB := by unfold WF; decide
  have hS : stocksNonneg baseDB := by unfold stocksNonneg; decide
  have hI : itemsNonneg baseDB := by unfold itemsNonneg; decide
  have hops : ∀ op ∈ [Op.createSale wSale, Op.adjustStock 1 (-3) "merma" "u1",
      Op.cancelSale 100 "u1"], opOk op := by
    intro op hop
    fin_cases hop
    · show ∀ it ∈ wSale.items, 0 ≤ it.quantity
      decide
    · trivial
    · trivial
  exact ⟨hWF, hS, hI, hops, c1_stock_nonneg _ _ hWF hS hI hops⟩

/-- C2: when the request's total is positive, its line items reference
pairwise-distinct existing products, and some line item demands more than
its product's current stock, `create` fails with `insufficientStock` naming
that item's product and both quantities, and — the transaction rolling the
unit back — the store the caller observes afterwards is exactly the store
before the call (no sale header, item row, stock change or ledger row
survives). -/
theorem c2_insufficient_stock (db : DB) (d : CreateSaleInput)
    (htot : 0 < d.total)
    (hnd : (d.items.map (fun it => it.product_id)).Nodup)
    (hpres : ∀ it ∈ d.items, present db it.product_id = true)
    (hfail : ∃ it ∈ d.items, ∃ s, stockOf db it.product_id = some s ∧
      s < it.quantity) :
    ∃ it ∈ d.items, ∃ s, stockOf db it.product_id = some s ∧ s < it.quantity ∧
      SalesService.create db d =
        .error (.insufficientStock it.product_name s it.quantity) ∧
      applyOp db (.createSale d) = db := by
  have hne : d.items.isEmpty = false := by
    obtain ⟨it0, hit0, _⟩ := hfail
    cases hl : d.items with
    | nil => rw [hl] at hit0; cases hit0
    | cons a l => rfl
  obtain ⟨it, hit, s, hs, hlt, herr⟩ :=
    processItems_first_fail db.nextId d.cashier_id d.items
      ({ db with
          nextId := db.nextId + 1
          sales := db.sales ++ [newSaleRow db d] })
      hnd hpres hfail
  have hcreate : SalesService.create db d =
      .error (.insufficientStock it.product_name s it.quantity) := by
    rw [create_eq, if_neg (by simp [hne]), if_neg (by omega), herr]
  exact ⟨it, hit, s, hs, hlt, hcreate, applyOp_createSale_error _ _ _ hcreate⟩

theorem c2_witness :
    0 < w2sale.total ∧
    (∃ it ∈ w2sale.items, ∃ s, stockOf baseDB it.product_id = some s ∧
      s < it.quantity ∧
      SalesService.create baseDB w2sale =
        .error (.insufficientStock it.product_name s it.quantity) ∧
      applyOp baseDB (.createSale w2sale) = baseDB) :=
  ⟨by decide,
    c2_insufficient_stock baseDB w2sale (by decide) (by decide) (by decide)
      ⟨⟨1, "Lapicero", 11, 2, 22⟩, by decide, 10, rfl, by decide⟩⟩

/-- C3: every successful `create` assigns as daily number the maximum
daily number among the sales — active or cancelled — created on the current
calendar date plus one, or 1 when that date has no sale yet
(`specAssignedDaily`); the number is returned, stored on the persisted
header, and the header is stamped with the current date and appended, so
two sales on one date receive 1 then 2 and the following date restarts
at 1 (see the witness). -/
theorem c3_daily_number (db : DB) (d : CreateSaleInput) (db' : DB)
    (res : CreateSaleResult) (hWF : WF db)
    (h : SalesService.create db d = .ok (db', res)) :
    res.daily_number = specAssignedDaily db ∧
    res.sale.daily_number = specAssignedDaily db ∧
    res.sale.created_date = db.today ∧
    db'.sales = db.sales ++ [newSaleRow db d] ∧
    (newSaleRow db d).daily_number = specAssignedDaily db ∧
    (newSaleRow db d).created_date = db.today := by
  have hagree : nextDailyNumber db = specAssignedDaily db := by
    unfold nextDailyNumber specAssignedDaily
    cases hM : (dailyNumbersToday db).max? with
    | none =>
        rw [if_pos (List.max?_eq_none_iff.mp hM)]
    | some m =>
        have hne : ¬dailyNumbersToday db = [] := by
          intro h0
          rw [h0] at hM
          cases hM
        rw [if_neg hne]
        rfl
  obtain ⟨_, _, hsale, hdn, hsales, _, _, _, _, _, _⟩ :=
    create_ok_spec db d db' res hWF h
  refine ⟨by rw [hdn, hagree], ?_, ?_, hsales, ?_, rfl⟩
  · rw [hsale]
    show nextDailyNumber db = _
    exact hagree
  · rw [hsale]
    rfl
  · show nextDailyNumber db = _
    exact hagree

theorem c3_witness :
    SalesService.create baseDB w3sale = .ok (c3db1, c3res1) ∧
    c3res1.daily_number = 1 ∧
    SalesService.create c3db1 w3sale = .ok (c3db2, c3res2) ∧
    c3res2.daily_number = 2 ∧
    c3dbNext.today = c3db2.today + 1 ∧
    SalesService.create c3dbNext w3sale = .ok (c3pair3.1, c3pair3.2) ∧
    c3pair3.2.daily_number = 1 := by
  have h1 : SalesService.create baseDB w3sale = .ok (c3db1, c3res1) := rfl
  have h2 : SalesService.create c3db1 w3sale = .ok (c3db2, c3res2) := rfl
  have h3 : SalesService.create c3dbNext w3sale = .ok (c3pair3.1, c3pair3.2) := rfl
  have e1 := (c3_daily_number baseDB w3sale c3db1 c3res1 (by unfold WF; decide) h1).1
  have e2 := (c3_daily_number c3db1 w3sale c3db2 c3res2 (by unfold WF; decide) h2).1
  have e3 := (c3_daily_number c3dbNext w3sale c3pair3.1 c3pair3.2
    (by unfold WF; decide) h3).1
  refine ⟨h1, ?_, h2, ?_, rfl, h3, ?_⟩
  · rw [e1]; decide
  · rw [e2]; decide
  · rw [e3]; decide

/-- C4: creating a sale and then cancelling it — with no operation in
between — restores every product's stock (indeed the whole product table)
to its pre-sale state, and the cancellation appends exactly one
compensating `adjustment` ledger row with `reference_id` = the sale's id per
line item of the sale, carrying that item's product and quantity. -/
theorem c4_cancel_inverts_create (db : DB) (d : CreateSaleInput) (db1 : DB)
    (res : CreateSaleResult) (userId : String) (db2 : DB) (hWF : WF db)
    (hcreate : SalesService.create db d = .ok (db1, res))
    (hcancel : SalesService.cancel db1 res.sale.id userId = .ok db2) :
    db2.products = db.products ∧
    (∃ ms, db2.stock_movements = db1.stock_movements ++ ms ∧
      ms.length = d.items.length ∧
      List.Forall₂ (fun (m : StockMovementRow) (it : CreateSaleItemInput) =>
        m.movement_type = .adjustment ∧ m.reference_id = some res.sale.id ∧
        m.product_id = it.product_id ∧ m.quantity = it.quantity) ms d.items) := by
  obtain ⟨_, _, hsale, _, _, _, _, hprod1, ⟨rows, hrows, hf2⟩, _, hpres⟩ :=
    create_ok_spec db d db1 res hWF hcreate
  have hsid : res.sale.id = db.nextId := by rw [hsale]; rfl
  rw [hsid] at hcancel
  obtain ⟨sale2, hfind2, _, _, _, hpr2, _, ms, hmv2, hf2m⟩ :=
    cancel_ok_spec db1 db.nextId userId db2 hcancel
  have hqy : ∀ pid, rowsQty rows pid = itemsQty d.items pid :=
    rowsQty_eq_itemsQty db.nextId rows d.items hf2
  have hfilter : db1.sale_items.filter (fun it => it.sale_id == db.nextId) = rows := by
    rw [hrows, List.filter_append]
    have hA : db.sale_items.filter (fun it => it.sale_id == db.nextId) = [] := by
      rw [List.filter_eq_nil_iff]
      intro it hit
      have := hWF.2.2 it hit
      simp only [beq_iff_eq]
      omega
    have hB : rows.filter (fun it => it.sale_id == db.nextId) = rows := by
      rw [List.filter_eq_self]
      intro r hr
      obtain ⟨it, _, hrel⟩ := forall2_mem_left hf2 r hr
      simp [hrel.1]
    rw [hA, hB, List.nil_append]
  constructor
  · rw [hpr2, hfilter, hprod1, List.map_map]
    have hpt : ∀ p ∈ db.products, ((fun p : ProductRow =>
        { p with stock := p.stock + rowsQty rows p.id }) ∘ (fun p : ProductRow =>
        { p with stock := p.stock - itemsQty d.items p.id })) p = p := by
      intro p _
      show ({ p with
        stock := p.stock - itemsQty d.items p.id + rowsQty rows p.id } : ProductRow) = p
      have hstock : p.stock - itemsQty d.items p.id + rowsQty rows p.id = p.stock := by
        rw [hqy p.id]
        omega
      calc ({ p with
            stock := p.stock - itemsQty d.items p.id + rowsQty rows p.id } : ProductRow)
          = { p with stock := p.stock } := by rw [hstock]
        _ = p := rfl
    rw [List.map_congr_left hpt]
    exact List.map_id' db.products
  · have hfilterp : (db1.sale_items.filter (fun it => it.sale_id == db.nextId)).filter
        (fun it => present db1 it.product_id) = rows := by
      rw [hfilter, List.filter_eq_self]
      intro r hr
      obtain ⟨it, hitmem, hrel⟩ := forall2_mem_left hf2 r hr
      have hp2 : present db1 it.product_id = true := by
        rw [present_of_products_map db db1 _ hprod1 (fun p => rfl)]
        exact hpres it hitmem
      rw [hrel.2.1]
      exact hp2
    rw [hfilterp] at hf2m
    refine ⟨ms, hmv2, ?_, ?_⟩
    · rw [hf2m.length_eq, hf2.length_eq]
    · refine forall2_comp ?_ hf2m hf2
      intro m r it hmr hri
      exact ⟨hmr.1, by rw [hsid]; exact hmr.2.1,
        (hmr.2.2.1).trans hri.2.1, (hmr.2.2.2.1).trans hri.2.2.2.1⟩

theorem c4_witness :
    SalesService.create baseDB wSale = .ok (c4db1, c4res) ∧
    SalesService.cancel c4db1 c4res.sale.id "u9" = .ok c4db2 ∧
    c4db2.products = baseDB.products ∧
    (∃ ms, c4db2.stock_movements = c4db1.stock_movements ++ ms ∧
      ms.length = wSale.items.length) := by
  have h1 : SalesService.create baseDB wSale = .ok (c4db1, c4res) := rfl
  have h2 : SalesService.cancel c4db1 c4res.sale.id "u9" = .ok c4db2 := rfl
  obtain ⟨hp, ms, hm, hlen, _⟩ :=
    c4_cancel_inverts_create baseDB wSale c4db1 c4res "u9" c4db2
      (by unfold WF; decide) h1 h2
  exact ⟨h1, h2, hp, ms, hm, hlen⟩

/-- C5 (counterexample to the claim as stated): the product of sale 50 is
soft-deleted (`is_active = 0`), yet cancelling the sale does NOT skip the
item: the stock is restored from 7 to 10 and a compensating ledger row IS
recorded — because the reversal looks products up by id without an
`is_active` filter.  Only a hard-deleted (absent) row is skipped. -/
theorem c5_counterexample :
    c5prod.is_active = false ∧
    SalesService.cancel c5db 50 "u1" = .ok c5db2 ∧
    stockOf c5db2 2 = some 10 ∧
    c5db2.stock_movements.length = 1 := ⟨rfl, rfl, rfl, rfl⟩

/-- C5 (amended): on cancellation of an existing active sale, an item whose
referenced product row no longer exists (hard-deleted) is silently skipped —
no error, no stock change, no compensating ledger row for it — while every
item whose product row exists, soft-deleted or not, has its stock restored
and exactly one compensating `adjustment` ledger row recorded; the
cancellation itself succeeds and marks the sale inactive either way. -/
theorem c5_skip_missing_products (db : DB) (sid : Nat) (userId : String)
    (sale : SaleRow)
    (hfind : db.sales.find? (fun s => s.id == sid && s.is_active) = some sale) :
    ∃ db2, SalesService.cancel db sid userId = .ok db2 ∧
      (∀ s ∈ db2.sales, s.id = sid → s.is_active = false) ∧
      db2.products = db.products.map (fun p =>
        { p with stock := p.stock +
          rowsQty (db.sale_items.filter (fun it => it.sale_id == sid)) p.id }) ∧
      (∃ ms, db2.stock_movements = db.stock_movements ++ ms ∧
        List.Forall₂ (cancelMovRel sid userId) ms
          ((db.sale_items.filter (fun it => it.sale_id == sid)).filter
            (fun it => present db it.product_id)) ∧
        (∀ m ∈ ms, present db m.product_id = true)) := by
  have hok : SalesService.cancel db sid userId =
      .ok (cancelResultDB db sid userId sale) := by
    rw [cancel_eq, hfind]
  obtain ⟨sale2, hfind2, htd, hsi, hnx, hpr, hsl, ms, hmv, hf2⟩ :=
    cancel_ok_spec db sid userId _ hok
  refine ⟨cancelResultDB db sid userId sale, hok, ?_, hpr, ms, hmv, hf2, ?_⟩
  · intro s hs hid
    rw [hsl] at hs
    obtain ⟨s0, hs0, rfl⟩ := List.mem_map.mp hs
    by_cases h0 : s0.id = sid
    · rw [if_pos h0]
    · rw [if_neg h0] at hid ⊢
      exact absurd hid h0
  · intro m hm2
    obtain ⟨r, hrmem, hrel⟩ := forall2_mem_left hf2 m hm2
    rw [hrel.2.2.1]
    exact (List.mem_filter.mp hrmem).2

theorem c5_witness :
    c5db.sales.find? (fun s => s.id == 50 && s.is_active) = some c5sale ∧
    (∃ db2, SalesService.cancel c5db 50 "u1" = .ok db2 ∧
      (∀ s ∈ db2.sales, s.id = 50 → s.is_active = false) ∧
      db2.products = c5db.products.map (fun p =>
        { p with stock := p.stock +
          rowsQty (c5db.sale_items.filter (fun it => it.sale_id == 50)) p.id })) := by
  refine ⟨rfl, ?_⟩
  obtain ⟨db2, h1, h2, h3, _⟩ := c5_skip_missing_products c5db 50 "u1" c5sale rfl
  exact ⟨db2, h1, h2, h3⟩

/-- C6: a request with an empty item list or a non-positive total fails
with a validation error before the transaction is even opened, and the
caller's store is unchanged: no sale header, no item row, no stock change,
no ledger row. -/
theorem c6_fail_fast_validation (db : DB) (d : CreateSaleInput)
    (h : d.items = [] ∨ d.total ≤ 0) :
    (∃ msg, SalesService.create db d = .error (.validation msg)) ∧
    applyOp db (.createSale d) = db := by
  have herr : ∃ msg, SalesService.create db d = .error (.validation msg) := by
    rcases h with h0 | h0
    · exact ⟨_, by rw [create_eq, if_pos (by simp [h0])]⟩
    · by_cases h1 : d.items.isEmpty
      · exact ⟨_, by rw [create_eq, if_pos h1]⟩
      · exact ⟨_, by rw [create_eq, if_neg h1, if_pos h0]⟩
  obtain ⟨msg, hm⟩ := herr
  exact ⟨⟨msg, hm⟩, applyOp_createSale_error _ _ _ hm⟩

theorem c6_witness :
    (w6sale.items = [] ∨ w6sale.total ≤ 0) ∧
    (∃ msg, SalesService.create baseDB w6sale = .error (.validation msg)) ∧
    applyOp baseDB (.createSale w6sale) = baseDB := by
  have h := c6_fail_fast_validation baseDB w6sale (Or.inl rfl)
  exact ⟨Or.inl rfl, h.1, h.2⟩

/-- C7: `adjustStock` fails with `notFound` when no product row has the
given id (store unchanged); with the product found and
`new = current + delta` negative it fails with `invalidState`
"stock cannot go negative" (store unchanged); and with `new` non-negative
it sets that product's stock to exactly `new`, touches no other product, no
sale and no item row, and appends exactly one `adjustment` ledger row with
`previous_stock` = the old and `new_stock` = the new value. -/
theorem c7_adjust_stock (db : DB) (pid : Nat) (q : Int)
    (reason userId : String) :
    (stockOf db pid = none →
      ProductService.adjustStock db pid q reason userId =
        .error (.notFound "Producto no encontrado") ∧
      applyOp db (.adjustStock pid q reason userId) = db) ∧
    (∀ s, stockOf db pid = some s → s + q < 0 →
      ProductService.adjustStock db pid q reason userId =
        .error (.invalidState "El stock no puede ser negativo") ∧
      applyOp db (.adjustStock pid q reason userId) = db) ∧
    (∀ s, stockOf db pid = some s → 0 ≤ s + q →
      ∃ db2, ProductService.adjustStock db pid q reason userId = .ok db2 ∧
        stockOf db2 pid = some (s + q) ∧
        (∀ pid2, pid2 ≠ pid → stockOf db2 pid2 = stockOf db pid2) ∧
        db2.sales = db.sales ∧ db2.sale_items = db.sale_items ∧
        (∃ m, db2.stock_movements = db.stock_movements ++ [m] ∧
          m.movement_type = .adjustment ∧ m.product_id = pid ∧
          m.quantity = q ∧ m.previous_stock = s ∧ m.new_stock = s + q ∧
          m.reference_id = none)) := by
  cases hf : db.products.find? (fun p => p.id == pid) with
  | none =>
      have hst : stockOf db pid = none := by simp [stockOf, findProduct, hf]
      have herr : ProductService.adjustStock db pid q reason userId =
          .error (.notFound "Producto no encontrado") := by
        rw [adjustStock_eq, hf]
      refine ⟨fun _ => ⟨herr, applyOp_adjust_error _ _ _ _ _ _ herr⟩, ?_, ?_⟩
      · intro s hs
        rw [hst] at hs
        cases hs
      · intro s hs
        rw [hst] at hs
        cases hs
  | some product =>
      have hstk : stockOf db pid = some product.stock := by
        simp [stockOf, findProduct, hf]
      have hpid : product.id = pid := by simpa using List.find?_some hf
      have hid1 : ∀ p : ProductRow,
          ((fun p : ProductRow => if p.id = pid then
            { p with stock := product.stock + q } else p) p).id = p.id := by
        intro p
        by_cases h' : p.id = pid <;> simp [h']
      refine ⟨?_, ?_, ?_⟩
      · intro h0
        rw [hstk] at h0
        cases h0
      · intro s hs hneg
        have hse : s = product.stock := by
          rw [hstk] at hs
          exact (Option.some.inj hs).symm
        subst hse
        have herr : ProductService.adjustStock db pid q reason userId =
            .error (.invalidState "El stock no puede ser negativo") := by
          rw [adjustStock_eq, hf]
          show (if product.stock + q < 0 then
              (.error (.invalidState "El stock no puede ser negativo") :
                Except SaleError DB)
            else .ok (adjustResultDB db pid q reason userId product)) = _
          rw [if_pos (show product.stock + q < 0 by omega)]
        exact ⟨herr, applyOp_adjust_error _ _ _ _ _ _ herr⟩
      · intro s hs hpos
        have hse : s = product.stock := by
          rw [hstk] at hs
          exact (Option.some.inj hs).symm
        subst hse
        have hok : ProductService.adjustStock db pid q reason userId =
            .ok (adjustResultDB db pid q reason userId product) := by
          rw [adjustStock_eq, hf]
          show (if product.stock + q < 0 then
              (.error (.invalidState "El stock no puede ser negativo") :
                Except SaleError DB)
            else .ok (adjustResultDB db pid q reason userId product)) = _
          rw [if_neg (show ¬product.stock + q < 0 by omega)]
        refine ⟨_, hok, ?_, ?_, rfl, rfl, ?_⟩
        · show ((db.products.map (fun p : ProductRow =>
              if p.id = pid then { p with stock := product.stock + q } else p)).find?
              (fun p => p.id == pid)).map (fun p => p.stock) =
              some (product.stock + q)
          rw [find?_map_of_id _ _ hid1, hf]
          simp only [Option.map_some']
          rw [if_pos hpid]
        · intro pid2 hne
          show ((db.products.map (fun p : ProductRow =>
              if p.id = pid then { p with stock := product.stock + q } else p)).find?
              (fun p => p.id == pid2)).map (fun p => p.stock) = stockOf db pid2
          rw [find?_map_of_id _ _ hid1]
          cases hf2 : db.products.find? (fun p => p.id == pid2) with
          | none => simp [stockOf, findProduct, hf2]
          | some p2 =>
              have hp2 : p2.id = pid2 := by simpa using List.find?_some hf2
              simp only [Option.map_some']
              rw [if_neg (by rw [hp2]; exact hne)]
              simp [stockOf, findProduct, hf2]
        · exact ⟨_, rfl, rfl, rfl, rfl, rfl, rfl, rfl⟩

theorem c7_witness :
    stockOf baseDB 1 = some 10 ∧ 0 ≤ (10 : Int) + (-3) ∧
    (∃ db2, ProductService.adjustStock baseDB 1 (-3) "merma" "u1" = .ok db2 ∧
      stockOf db2 1 = some (10 + (-3))) := by
  refine ⟨rfl, by decide, ?_⟩
  obtain ⟨db2, ha, hb, _⟩ :=
    (c7_adjust_stock baseDB 1 (-3) "merma" "u1").2.2 10 rfl (by decide)
  exact ⟨db2, ha, hb⟩

/-- C8: when no sale row with the requested id is active — the id is
unknown or the sale was already cancelled — `cancel` fails with the
`notFound` error "Venta no encontrada o ya cancelada" and performs no
mutation at all: the rolled-back store equals the store before the call. -/
theorem c8_cancel_missing_or_inactive (db : DB) (sid : Nat) (userId : String)
    (h : ∀ s ∈ db.sales, s.id = sid → s.is_active = false) :
    SalesService.cancel db sid userId =
      .error (.notFound "Venta no encontrada o ya cancelada") ∧
    applyOp db (.cancelSale sid userId) = db := by
  have hfind : db.sales.find? (fun s => s.id == sid && s.is_active) = none := by
    apply List.find?_eq_none.mpr
    intro s hs
    simp only [Bool.and_eq_true, beq_iff_eq, not_and]
    intro hEq hact
    rw [h s hs hEq] at hact
    cases hact
  have herr : SalesService.cancel db sid userId =
      .error (.notFound "Venta no encontrada o ya cancelada") := by
    rw [cancel_eq, hfind]
  exact ⟨herr, applyOp_cancel_error _ _ _ _ herr⟩

theorem c8_witness :
    (∀ s ∈ c8db.sales, s.id = 50 → s.is_active = false) ∧
    SalesService.cancel c8db 50 "u1" =
      .error (.notFound "Venta no encontrada o ya cancelada") ∧
    applyOp c8db (.cancelSale 50 "u1") = c8db := by
  have hpre : ∀ s ∈ c8db.sales, s.id = 50 → s.is_active = false := by decide
  have h := c8_cancel_missing_or_inactive c8db 50 "u1" hpre
  exact ⟨hpre, h.1, h.2⟩

/-- C9: a successful `create` stores exactly the submitted values: the
persisted header carries the request's total and subtotal as given and its
tax and discount defaulted to 0 when absent, and each stored item row
snapshots the request's product_name, quantity, unit_price and total_price
verbatim — nothing is re-read from the catalog and no bookkeeping relation
between the item totals and the header totals is checked (see the witness,
whose accepted request violates `Σ item.total_price = total - tax +
discount` and names the product differently from the catalog). -/
theorem c9_stores_submitted (db : DB) (d : CreateSaleInput) (db' : DB)
    (res : CreateSaleResult) (hWF : WF db)
    (h : SalesService.create db d = .ok (db', res)) :
    res.sale.total = d.total ∧ res.sale.subtotal = d.subtotal ∧
    res.sale.tax = d.tax.getD 0 ∧ res.sale.discount = d.discount.getD 0 ∧
    db'.sales = db.sales ++ [newSaleRow db d] ∧
    (∃ rows, db'.sale_items = db.sale_items ++ rows ∧
      List.Forall₂ (fun (r : SaleItemRow) (it : CreateSaleItemInput) =>
        r.product_name = it.product_name ∧ r.quantity = it.quantity ∧
        r.unit_price = it.unit_price ∧ r.total_price = it.total_price)
        rows d.items) := by
  obtain ⟨_, _, hsale, _, hsales, _, _, _, ⟨rows, hrows, hf2⟩, _, _⟩ :=
    create_ok_spec db d db' res hWF h
  refine ⟨?_, ?_, ?_, ?_, hsales, rows, hrows, ?_⟩
  · rw [hsale]; rfl
  · rw [hsale]; rfl
  · rw [hsale]; rfl
  · rw [hsale]; rfl
  · exact forall2_imp' hf2 (fun r it hrel =>
      ⟨hrel.2.2.1, hrel.2.2.2.1, hrel.2.2.2.2.1, hrel.2.2.2.2.2⟩)

theorem c9_witness :
    SalesService.create baseDB w9sale = .ok (c9pair.1, c9pair.2) ∧
    c9pair.2.sale.total = w9sale.total ∧
    c9pair.2.sale.tax = w9sale.tax.getD 0 ∧
    c9pair.2.sale.discount = w9sale.discount.getD 0 ∧
    ((w9sale.items.map (fun it => it.total_price)).sum ≠
      w9sale.total - w9sale.tax.getD 0 + w9sale.discount.getD 0) ∧
    (∀ p ∈ baseDB.products, ∀ it ∈ w9sale.items, p.name ≠ it.product_name) := by
  have h := c9_stores_submitted baseDB w9sale c9pair.1 c9pair.2
    (by unfold WF; decide) rfl
  exact ⟨rfl, h.1, h.2.2.1, h.2.2.2.1, by decide, by decide⟩

/-- C10: within one request the stock check is threaded — each line item is
checked against the stock already decremented by the earlier lines — so a
successful `create` implies every product's total demand (summed over
duplicate lines) was covered by its initial stock, and with all initial
stocks non-negative no product's stock is negative afterwards; the closed
conjunct shows two 7-unit lines of the same product with stock 10 failing
with `insufficientStock` reporting 3 (not 10) available for the second
line. -/
theorem c10_duplicate_lines_threaded (db : DB) (d : CreateSaleInput)
    (db' : DB) (res : CreateSaleResult) (hWF : WF db) (hS : stocksNonneg db)
    (h : SalesService.create db d = .ok (db', res)) :
    (∀ it ∈ d.items, ∀ s, stockOf db it.product_id = some s →
      itemsQty d.items it.product_id ≤ s) ∧
    stocksNonneg db' ∧
    SalesService.create baseDB dup10sale =
      .error (.insufficientStock "Lapicero" 3 7) :=
  ⟨create_ok_bound db d db' res h,
    create_preserves_stocksNonneg db d db' res hWF hS h, rfl⟩

theorem c10_witness :
    WF baseDB ∧ stocksNonneg baseDB ∧
    SalesService.create baseDB wSale = .ok (c4db1, c4res) ∧
    itemsQty wSale.items 1 ≤ 10 ∧ stocksNonneg c4db1 := by
  have hWF : WF baseDB := by unfold WF; decide
  have hS : stocksNonneg baseDB := by unfold stocksNonneg; decide
  have h := c10_duplicate_lines_threaded baseDB wSale c4db1 c4res hWF hS rfl
  refine ⟨hWF, hS, rfl, ?_, h.2.1⟩
  exact h.1 ⟨1, "Lapicero", 4, 2, 8⟩ (by decide) 10 rfl

end Claims

end POS
